import Mathlib

/-!
Verification development for the STORE11 order-submission path.

Client side (order form script): validation, order submitter
(`sendOrderToApi`), endpoint resolver (`getOrdersApiUrlWhenReady`,
`getFallbackOrdersApiUrl`), and the submission coordinator
(`handleSubmit`) with its single-flight guard.

Server side (`api/orders.js`): the serverless `handler` performing the
read-modify-write update of the shared orders document through the
remote content API (`getFile` / `putFile`).

Modelling conventions: promises are embedded as `Except Unit`
outcomes (`.error` = rejection); the DOM, storage and network
collaborators are embedded as explicit inputs; JSON values are the
inductive `JsVal`; base64/JSON (de)serialization of the remote
document is abstracted: the remote store yields the decoded, parsed
document directly, and a write request carries the document to be
serialized.  All definitions are executable.
-/

namespace Store11

/-! ## JavaScript string primitives used by the code -/

/-- Code points matched by the JavaScript `\s` class and removed by
`String.prototype.trim` (whitespace and line terminators). -/
def jsWhitespaceCodes : List Nat :=
  [0x9, 0xA, 0xB, 0xC, 0xD, 0x20, 0xA0, 0x1680,
   0x2000, 0x2001, 0x2002, 0x2003, 0x2004, 0x2005, 0x2006, 0x2007,
   0x2008, 0x2009, 0x200A, 0x2028, 0x2029, 0x202F, 0x205F, 0x3000, 0xFEFF]

/-- JavaScript whitespace predicate (`\s`). -/
def jsWhitespace (c : Char) : Bool :=
  jsWhitespaceCodes.contains c.toNat

/-- `l` with leading and trailing JavaScript whitespace removed. -/
def jsTrimList (l : List Char) : List Char :=
  ((l.dropWhile jsWhitespace).reverse.dropWhile jsWhitespace).reverse

/-- JavaScript `String.prototype.trim`. -/
def jsTrim (s : String) : String :=
  String.mk (jsTrimList s.data)

/-- `url.replace(/\/+$/, '')`: strip trailing slashes. -/
def stripTrailingSlashes (s : String) : String :=
  String.mk ((s.data.reverse.dropWhile (fun c => c == '/')).reverse)

/-- `p` is an ASCII-case-insensitive anchor of `l` (the characters of
`l`, lowered, start with `p`). -/
def ciStartsWith : List Char → List Char → Bool
  | [], _ => true
  | _ :: _, [] => false
  | a :: ps, b :: ls => (b.toLower == a) && ciStartsWith ps ls

/-- The test `/^https?:\/\//i.test(s)`. -/
def hasHttpScheme (s : String) : Bool :=
  ciStartsWith "http://".data s.data || ciStartsWith "https://".data s.data

/-- The test `/^http:\/\//i.test(s)` (insecure scheme). -/
def hasInsecureHttpScheme (s : String) : Bool :=
  ciStartsWith "http://".data s.data

/-- `url.replace(/^http:\/\//i, 'https://')`. -/
def upgradeToHttps (s : String) : String :=
  if hasInsecureHttpScheme s then "https://" ++ String.mk (s.data.drop 7) else s

/-! ## JSON values (JavaScript objects crossing the wire) -/

/-- A JSON value as manipulated by the JavaScript code. -/
inductive JsVal where
  | null
  | bool (b : Bool)
  | num (n : Int)
  | str (s : String)
  | arr (xs : List JsVal)
  | obj (fields : List (String × JsVal))

/-- A JavaScript object: ordered field list (keys unique after JSON parse). -/
abbrev JsObj := List (String × JsVal)

/-- Property read `o[k]`: `none` models `undefined` (absent field). -/
def getField : JsObj → String → Option JsVal
  | [], _ => none
  | (k', v) :: rest, k => if k' = k then some v else getField rest k

/-- Property write `o[k] = v`: replace in place, or append a new field. -/
def setField : JsObj → String → JsVal → JsObj
  | [], k, v => [(k, v)]
  | (k', v') :: rest, k, v =>
      if k' = k then (k, v) :: rest else (k', v') :: setField rest k v

/-- JavaScript truthiness of a JSON value. -/
def truthyVal : JsVal → Bool
  | .null => false
  | .bool b => b
  | .num n => n != 0
  | .str s => s != ""
  | .arr _ => true
  | .obj _ => true

/-- Truthiness of a possibly-absent value (`undefined` is falsy). -/
def truthyO (v : Option JsVal) : Bool :=
  match v with
  | some x => truthyVal x
  | none => false

/-- Truthiness of a possibly-unset environment variable. -/
def truthyEnv (v : Option String) : Bool :=
  match v with
  | some s => s != ""
  | none => false

/-- Truthiness check `order[k]` for the parsed body value (property reads
on non-objects other than arrays never occur on the reached paths; an
array has no string-named own fields in this model, so the read yields
`undefined`). -/
def truthyField (v : JsVal) (k : String) : Bool :=
  match v with
  | .obj o => truthyO (getField o k)
  | _ => false

/-- `String(v)` as used to build the commit message `'Add order ' + order.id`. -/
def displayVal : JsVal → String
  | .null => "null"
  | .bool b => if b then "true" else "false"
  | .num n => toString n
  | .str s => s
  | .arr _ => ""
  | .obj _ => "[object Object]"

/-! ## Server side: `api/orders.js` -/

/-- The raw `req.body` Vercel hands to the handler.  A string body is
modelled together with the outcome of `JSON.parse` on it (`none` =
malformed JSON), since the claims do not depend on the JSON grammar
itself. -/
inductive BodyVal where
  | undef
  | nullv
  | objv (o : JsObj)
  | arrv (xs : List JsVal)
  | strv (raw : String) (parsed : Option JsVal)

/-- The parts of the incoming request the handler consults. -/
structure ReqModel where
  method : String
  body : BodyVal

/-- Deployment environment variables (`none` = unset). -/
structure EnvModel where
  githubToken : Option String
  githubOwner : Option String
  githubRepo : Option String
  githubBranch : Option String

/-- The remote content store as seen by one handler invocation:
`getResult` is the outcome of `getFile` followed by base64 decode and
`JSON.parse` (document object and its sha; `.error` = any failure on
that path), `putOk` whether the `putFile` request succeeds. -/
structure RemoteModel where
  getResult : Except Unit (JsObj × String)
  putOk : Bool

/-- A `putFile` write request as built by the handler: the document to
be serialized and written, the concurrency token (`sha` is attached to
the request body only when truthy), the target branch and the commit
message. -/
structure PutReq where
  doc : JsObj
  sha : Option String
  branch : String
  message : String

/-- Observable outcome of one handler invocation: HTTP status of the
response and the write requests issued to the remote store. -/
structure HandlerResult where
  status : Nat
  writes : List PutReq

/-- `parseBody(req)`: `undefined`/`null` body gives `null`; a
non-array object is taken as is; a string is trimmed — empty parses to
`{}`, otherwise `JSON.parse` (throw on malformed JSON); any other
shape throws (`Unsupported body type`). -/
def parseBody (b : BodyVal) : Except Unit JsVal :=
  match b with
  | .undef => .ok .null
  | .nullv => .ok .null
  | .objv o => .ok (.obj o)
  | .arrv _ => .error ()
  | .strv raw parsed =>
      if jsTrim raw = "" then .ok (.obj [])
      else
        match parsed with
        | some v => .ok v
        | none => .error ()

/-- The rejection test `!order || typeof order !== 'object'`. -/
def isNonObjectBody (v : JsVal) : Bool :=
  match v with
  | .obj _ => false
  | .arr _ => false
  | _ => true

/-- `(process.env.GITHUB_BRANCH || 'main').trim() || 'main'`. -/
def resolveBranch (b : Option String) : String :=
  let b0 := match b with
    | some s => if s != "" then s else "main"
    | none => "main"
  if jsTrim b0 != "" then jsTrim b0 else "main"

/-- `order.id = order.id || 'ord-' + Date.now(); order.status =
order.status || 'pending';` — field assignments on the accepted order
object. -/
def acceptOrder (o : JsObj) (now : Nat) : JsObj :=
  let o1 := if truthyO (getField o "id") then o
            else setField o "id" (.str ("ord-" ++ toString now))
  if truthyO (getField o1 "status") then o1
  else setField o1 "status" (.str "pending")

/-- `data.orders` normalized: `if (!Array.isArray(data.orders))
data.orders = []`. -/
def priorOrders (doc : JsObj) : List JsVal :=
  match getField doc "orders" with
  | some (.arr xs) => xs
  | _ => []

/-- The serverless `handler(req, res)` of `api/orders.js`, as a
function from the request, the environment and the remote-store
behaviour to the response status and the issued write requests.
`now` is `Date.now()` at the id-assignment point. -/
def handler (req : ReqModel) (env : EnvModel) (remote : RemoteModel)
    (now : Nat) : HandlerResult :=
  if req.method = "OPTIONS" then { status := 204, writes := [] }
  else if req.method ≠ "POST" then { status := 405, writes := [] }
  else if !(truthyEnv env.githubToken && truthyEnv env.githubOwner
            && truthyEnv env.githubRepo) then
    { status := 500, writes := [] }
  else
    let branch := resolveBranch env.githubBranch
    match parseBody req.body with
    | .error _ => { status := 400, writes := [] }
    | .ok order =>
      if isNonObjectBody order then { status := 400, writes := [] }
      else if !(truthyField order "fullName" || truthyField order "phone") then
        { status := 400, writes := [] }
      else
        match order with
        | .obj o =>
          let o1 := acceptOrder o now
          let oid := displayVal ((getField o1 "id").getD .null)
          match remote.getResult with
          | .error _ => { status := 500, writes := [] }
          | .ok (doc, sha) =>
            let newDoc := setField doc "orders" (.arr (.obj o1 :: priorOrders doc))
            let w : PutReq :=
              { doc := newDoc
                sha := if sha ≠ "" then some sha else none
                branch := branch
                message := "Add order " ++ oid }
            if remote.putOk then { status := 200, writes := [w] }
            else { status := 500, writes := [w] }
        | _ =>
          -- unreachable: a non-object body value has no truthy named field
          { status := 400, writes := [] }

/-- The write request built on the handler's accepted path (the `w`
of `handler`, named so lemmas can speak about it). -/
def acceptPutReq (env : EnvModel) (o doc : JsObj) (sha : String) (now : Nat) :
    PutReq :=
  { doc := setField doc "orders" (.arr (.obj (acceptOrder o now) :: priorOrders doc))
    sha := if sha ≠ "" then some sha else none
    branch := resolveBranch env.githubBranch
    message := "Add order " ++ displayVal ((getField (acceptOrder o now) "id").getD .null) }

/-! ## Client side: order submitter `sendOrderToApi` -/

/-- An HTTP response as observed through `fetch`: status code and the
body text.  (`r.ok` is status in [200,299]; the body is read and
best-effort parsed for logging only.) -/
structure FetchResponse where
  status : Nat
  body : String

/-- `sendOrderToApi(apiUrl, orderData)`.  `apiUrl` is the argument
(`none` = `undefined`/`null`); `pageSecure` models
`location.protocol === 'https:'`; `serializeOk` whether
`JSON.stringify(orderData)` succeeds; `fetchResult` the settlement of
the `fetch` promise (`.error` = network/CORS rejection).  Returns
(fetch was issued, resolved boolean). -/
def sendOrderToApi (apiUrl : Option String) (pageSecure : Bool)
    (serializeOk : Bool) (fetchResult : Except Unit FetchResponse) :
    Bool × Bool :=
  let url := stripTrailingSlashes (apiUrl.getD "")
  if url = "" || !hasHttpScheme url then (false, false)
  else
    let _finalUrl := if pageSecure && hasInsecureHttpScheme url
                     then upgradeToHttps url else url
    if !serializeOk then (false, false)
    else
      match fetchResult with
      | .error _ => (true, false)
      | .ok r =>
        if 200 ≤ r.status ∧ r.status ≤ 299 then (true, true) else (true, false)

/-! ## Client side: endpoint resolver -/

/-- The `Store` global as consulted by the resolver, when it exists
and exposes `getOrdersApiUrl`: the settlement of `Store.ready` (a
non-thenable `ready` is modelled as an immediately fulfilled one), the
URL the getter returns before and after refresh, whether
`Store.refreshFromRemote` exists, and the settlement of the refresh
promise. -/
structure StoreModel where
  ready : Except Unit Unit
  urlBeforeRefresh : String
  hasRefresh : Bool
  refreshResult : Except Unit Unit
  urlAfterRefresh : String

/-- Page-declared fallback sources: the content attribute of
`meta[name="orders-api-url"]` and the form's `data-orders-api-url`
attribute (`none` = element/attribute absent). -/
structure PageModel where
  metaUrl : Option String
  formAttrUrl : Option String

/-- `tryGet` inside the resolver: trim the getter's value and accept
it only if non-empty with an HTTP(S) scheme. -/
def tryGetUrl (raw : String) : Option String :=
  let url := jsTrim raw
  if url ≠ "" ∧ hasHttpScheme url then some url else none

/-- The raw candidate scanned by `getFallbackOrdersApiUrl`: the
trimmed meta tag content if truthy, else the trimmed form data
attribute. -/
def rawFallbackCandidate (page : PageModel) : Option String :=
  let fromForm : Option String :=
    match page.formAttrUrl with
    | some a => if a ≠ "" then some (jsTrim a) else none
    | none => none
  let raw0 : Option String :=
    match page.metaUrl with
    | some c => if c ≠ "" then some (jsTrim c) else none
    | none => none
  match raw0 with
  | some r => if r ≠ "" then some r else fromForm
  | none => fromForm

/-- The final acceptance `if (raw && /^https?:\/\//i.test(raw)) return
raw; return null`. -/
def acceptHttpCandidate (raw : Option String) : Option String :=
  match raw with
  | some r => if r ≠ "" ∧ hasHttpScheme r then some r else none
  | none => none

/-- `getFallbackOrdersApiUrl()`: meta tag first, then the form data
attribute; the candidate is trimmed and must have an HTTP(S) scheme. -/
def getFallbackOrdersApiUrl (page : PageModel) : Option String :=
  acceptHttpCandidate (rawFallbackCandidate page)

/-- `getOrdersApiUrlWhenReady()`: wait for `Store.ready`, read the
configured URL, refresh at most once, fall back to the page-declared
URL.  `store = none` models `typeof Store === 'undefined' ||
!Store.getOrdersApiUrl`.  Returns the settlement of the promise
(`.error` = rejection) together with the number of
`Store.refreshFromRemote()` calls made. -/
def getOrdersApiUrlWhenReady (store : Option StoreModel) (page : PageModel) :
    Except Unit (Option String) × Nat :=
  match store with
  | none => (.ok (getFallbackOrdersApiUrl page), 0)
  | some st =>
    match st.ready with
    | .error _ => (.error (), 0)
    | .ok _ =>
      match tryGetUrl st.urlBeforeRefresh with
      | some url => (.ok (some url), 0)
      | none =>
        if st.hasRefresh then
          match st.refreshResult with
          | .error _ => (.error (), 1)
          | .ok _ =>
            match tryGetUrl st.urlAfterRefresh with
            | some again => (.ok (some again), 1)
            | none => (.ok (getFallbackOrdersApiUrl page), 1)
        else (.ok (getFallbackOrdersApiUrl page), 0)

/-! ## Client side: validation and the submission coordinator -/

/-- The character class `[0-9+\s-]` of the phone regex. -/
def isPhoneChar (c : Char) : Bool :=
  c.isDigit || c == '+' || jsWhitespace c || c == '-'

/-- `/^[0-9+\s-]+$/.test(s)`: non-empty and every character in the
class. -/
def phoneRegexOk (s : String) : Bool :=
  s != "" && s.data.all isPhoneChar

/-- The order form as read by the script: whether `#order-form`
exists, the three input values (`none` = input element absent, so
`.value` is `undefined`), and the parsed `checkoutCart` session
snapshot (`none` = raw value absent or unparsable, leaving the
default `[]`; entries are abstract). -/
structure FormModel where
  present : Bool
  fullName : Option String
  phone : Option String
  city : Option String
  cart : Option (List Unit)

/-- `x ? x.trim() : ''` applied to a possibly-undefined input value. -/
def fieldValue (v : Option String) : String :=
  match v with
  | some s => if s != "" then jsTrim s else ""
  | none => ""

/-- `validateOrderForm()`: result and the alert messages surfaced. -/
def validateOrderForm (f : FormModel) : Bool × List String :=
  if !f.present then (false, [])
  else
    let fullName := fieldValue f.fullName
    let phone := fieldValue f.phone
    let city := fieldValue f.city
    if fullName = "" then (false, ["Please enter your full name"])
    else if phone = "" then (false, ["Please enter your phone number"])
    else if !phoneRegexOk phone then (false, ["Please enter a valid phone number"])
    else if city = "" then (false, ["Please enter your city"])
    else
      let items := f.cart.getD []
      if items.isEmpty then
        (false, ["Your cart is empty. Please add products before checkout."])
      else (true, [])

/-- Everything one `handleSubmit` invocation depends on: the form and
cart, whether `buildOrderPayload()` throws, the configuration store
and page fallback for the resolver, the page protocol, whether the
payload serializes, the settlement of the `fetch`, and the result of
`saveOrderToLocalStore` (Boolean: that function catches its own
exceptions). -/
structure ClientEnv where
  form : FormModel
  buildOk : Bool
  store : Option StoreModel
  page : PageModel
  pageSecure : Bool
  serializeOk : Bool
  fetchResult : Except Unit FetchResponse
  fallbackOk : Bool

/-- Observable trace of one `handleSubmit` invocation: the value of
the `submitInProgress` guard afterwards, how many validation alerts,
terminal success alerts (`finishOrderSuccess`) and terminal failure
alerts (`finishOrderFailure` or the build-error alert) were surfaced,
how many `fetch` network calls and `saveOrderToLocalStore` fallback
calls were made, and whether an order payload was built. -/
structure SubmitTrace where
  inProgressAfter : Bool
  validationAlerts : Nat
  successAlerts : Nat
  failureAlerts : Nat
  fetchCalls : Nat
  fallbackCalls : Nat
  payloadBuilt : Bool
deriving DecidableEq

/-- The local `done(saved)` continuation: clears the guard, restores
the button and surfaces exactly one terminal alert. -/
def doneTrace (fetches fallbacks : Nat) (saved : Bool) : SubmitTrace :=
  { inProgressAfter := false
    validationAlerts := 0
    successAlerts := if saved then 1 else 0
    failureAlerts := if saved then 0 else 1
    fetchCalls := fetches
    fallbackCalls := fallbacks
    payloadBuilt := true }

/-- `handleSubmit(event)` for one invocation, given the guard value at
entry and the collaborator behaviours. -/
def handleSubmit (inProgress : Bool) (env : ClientEnv) : SubmitTrace :=
  if inProgress then
    { inProgressAfter := true, validationAlerts := 0, successAlerts := 0,
      failureAlerts := 0, fetchCalls := 0, fallbackCalls := 0,
      payloadBuilt := false }
  else
    let v := validateOrderForm env.form
    if !v.1 then
      { inProgressAfter := false, validationAlerts := v.2.length,
        successAlerts := 0, failureAlerts := 0, fetchCalls := 0,
        fallbackCalls := 0, payloadBuilt := false }
    else if !env.buildOk then
      -- buildOrderPayload threw: alert and return before the guard is set
      { inProgressAfter := false, validationAlerts := 0, successAlerts := 0,
        failureAlerts := 1, fetchCalls := 0, fallbackCalls := 0,
        payloadBuilt := false }
    else
      match (getOrdersApiUrlWhenReady env.store env.page).1 with
      | .error _ =>
        -- .catch handler: fall back to local persistence, then done(saved)
        doneTrace 0 1 env.fallbackOk
      | .ok (some apiUrl) =>
        let s := sendOrderToApi (some apiUrl) env.pageSecure env.serializeOk
                   env.fetchResult
        let fetches := if s.1 then 1 else 0
        if s.2 then doneTrace fetches 0 true
        else doneTrace fetches 1 env.fallbackOk
      | .ok none =>
        doneTrace 0 1 env.fallbackOk

/-! ## Concrete inputs used by witness theorems -/

/-- A page with no fallback URL declared. -/
def demoPage : PageModel := { metaUrl := none, formAttrUrl := none }

/-- A fully valid form with a one-item cart. -/
def demoForm : FormModel :=
  { present := true, fullName := some "Amal", phone := some "+212 612345678",
    city := some "Casablanca", cart := some [()] }

/-- A client environment whose phone value contains the letter 'a'. -/
def env6w : ClientEnv :=
  { form := { demoForm with phone := some "06a 12" }, buildOk := true,
    store := none, page := demoPage, pageSecure := true, serializeOk := true,
    fetchResult := .ok { status := 200, body := "" }, fallbackOk := true }

/-- A client environment for a valid attempt with no endpoint
configured and a succeeding local fallback. -/
def envAttempt : ClientEnv :=
  { form := demoForm, buildOk := true, store := none, page := demoPage,
    pageSecure := true, serializeOk := true,
    fetchResult := .ok { status := 200, body := "" }, fallbackOk := true }

/-- A store whose URL becomes valid only after one refresh. -/
def st7 : StoreModel :=
  { ready := .ok (), urlBeforeRefresh := "", hasRefresh := true,
    refreshResult := .ok (), urlAfterRefresh := "https://api.x/orders" }

/-! ## Helper lemmas -/

theorem getField_setField_self (o : JsObj) (k : String) (v : JsVal) :
    getField (setField o k v) k = some v := by
  induction o with
  | nil => simp [setField, getField]
  | cons p rest ih =>
    obtain ⟨a, b⟩ := p
    by_cases h : a = k
    · simp [setField, getField, h]
    · simp [setField, getField, h, ih]

theorem getField_setField_ne (o : JsObj) (k k' : String) (v : JsVal)
    (h : k' ≠ k) : getField (setField o k v) k' = getField o k' := by
  induction o with
  | nil => simp [setField, getField, Ne.symm h]
  | cons p rest ih =>
    obtain ⟨a, b⟩ := p
    by_cases ha : a = k
    · subst ha
      simp [setField, getField, Ne.symm h]
    · simp [setField, getField, ha, ih]

theorem mem_dropWhile_of_not (p : Char → Bool) (l : List Char) (c : Char)
    (hc : c ∈ l) (hp : p c = false) : c ∈ l.dropWhile p := by
  induction l with
  | nil => cases hc
  | cons x xs ih =>
    rcases List.mem_cons.mp hc with h | h
    · subst h
      have hx : p c = false := hp
      simp [List.dropWhile_cons, hx]
    · by_cases hx : p x
      · simpa [List.dropWhile_cons, hx] using ih h
      · simp [List.dropWhile_cons, hx]
        exact .inr h

theorem mem_jsTrimList (l : List Char) (c : Char) (hc : c ∈ l)
    (hw : jsWhitespace c = false) : c ∈ jsTrimList l := by
  unfold jsTrimList
  rw [List.mem_reverse]
  exact mem_dropWhile_of_not _ _ _
    (List.mem_reverse.mpr (mem_dropWhile_of_not _ _ _ hc hw)) hw

theorem not_jsWhitespace_of_not_phoneChar (c : Char)
    (hbad : isPhoneChar c = false) : jsWhitespace c = false := by
  cases hws : jsWhitespace c
  · rfl
  · exfalso
    simp [isPhoneChar, hws] at hbad

theorem phoneRegexOk_jsTrim_false (s : String) (c : Char) (hc : c ∈ s.data)
    (hbad : isPhoneChar c = false) : phoneRegexOk (jsTrim s) = false := by
  have hmem : c ∈ (jsTrim s).data :=
    mem_jsTrimList s.data c hc (not_jsWhitespace_of_not_phoneChar c hbad)
  cases hall : (jsTrim s).data.all isPhoneChar with
  | false => simp [phoneRegexOk, hall]
  | true =>
    exfalso
    have := List.all_eq_true.mp hall c hmem
    rw [hbad] at this
    cases this

theorem handler_accept (req : ReqModel) (env : EnvModel) (remote : RemoteModel)
    (now : Nat) (o : JsObj) (doc : JsObj) (sha : String)
    (hm : req.method = "POST")
    (ht : truthyEnv env.githubToken = true)
    (how : truthyEnv env.githubOwner = true)
    (hre : truthyEnv env.githubRepo = true)
    (hbody : req.body = BodyVal.objv o)
    (hfield : (truthyField (.obj o) "fullName" || truthyField (.obj o) "phone") = true)
    (hget : remote.getResult = .ok (doc, sha)) :
    handler req env remote now =
      if remote.putOk
      then { status := 200, writes := [acceptPutReq env o doc sha now] }
      else { status := 500, writes := [acceptPutReq env o doc sha now] } := by
  simp [handler, hm, ht, how, hre, hbody, hget, hfield, parseBody,
    isNonObjectBody, acceptPutReq]

theorem doneTrace_terminal (a b : Nat) (saved : Bool) :
    (doneTrace a b saved).inProgressAfter = false ∧
    (doneTrace a b saved).successAlerts + (doneTrace a b saved).failureAlerts = 1 := by
  cases saved <;> simp [doneTrace]

/-! ## Claim theorems -/

/-- C4: in the handler's read-modify-write step, the write request for
every accepted order carries the concurrency token (document sha)
obtained from the immediately preceding read of the shared document,
and when that write fails the handler responds 500 rather than
silently dropping the order. -/
theorem write_supplies_concurrency_token (req : ReqModel) (env : EnvModel)
    (remote : RemoteModel) (now : Nat) (o : JsObj) (doc : JsObj) (sha : String)
    (hm : req.method = "POST")
    (ht : truthyEnv env.githubToken = true)
    (how : truthyEnv env.githubOwner = true)
    (hre : truthyEnv env.githubRepo = true)
    (hbody : req.body = BodyVal.objv o)
    (hfield : (truthyField (.obj o) "fullName" || truthyField (.obj o) "phone") = true)
    (hget : remote.getResult = .ok (doc, sha))
    (hsha : sha ≠ "") :
    (∃ w, (handler req env remote now).writes = [w] ∧ w.sha = some sha) ∧
    (remote.putOk = false → (handler req env remote now).status = 500) := by
  have h := handler_accept req env remote now o doc sha hm ht how hre hbody hfield hget
  cases hp : remote.putOk <;> rw [hp] at h <;> simp at h
  · exact ⟨⟨acceptPutReq env o doc sha now, by rw [h], by simp [acceptPutReq, hsha]⟩,
           fun _ => by rw [h]⟩
  · exact ⟨⟨acceptPutReq env o doc sha now, by rw [h], by simp [acceptPutReq, hsha]⟩,
           fun hc => by cases hc⟩

/-- C4 witness: a concrete accepted order whose write carries the sha
read just before, with the put failing and the response being 500. -/
theorem write_supplies_concurrency_token_witness :
    ("abc" : String) ≠ "" ∧
    (∃ w, (handler { method := "POST", body := .objv [("phone", JsVal.str "06")] }
        { githubToken := some "t", githubOwner := some "o", githubRepo := some "r",
          githubBranch := none }
        { getResult := .ok ([], "abc"), putOk := false } 7).writes = [w] ∧
        w.sha = some "abc") ∧
    (handler { method := "POST", body := .objv [("phone", JsVal.str "06")] }
        { githubToken := some "t", githubOwner := some "o", githubRepo := some "r",
          githubBranch := none }
        { getResult := .ok ([], "abc"), putOk := false } 7).status = 500 := by
  have h := write_supplies_concurrency_token
    { method := "POST", body := .objv [("phone", JsVal.str "06")] }
    { githubToken := some "t", githubOwner := some "o", githubRepo := some "r",
      githubBranch := none }
    { getResult := .ok ([], "abc"), putOk := false } 7
    [("phone", JsVal.str "06")] [] "abc"
    rfl rfl rfl rfl rfl (by decide) rfl (by decide)
  exact ⟨by decide, h.1, h.2 rfl⟩

/-- C5: for every accepted order, a missing or non-array `orders`
field of the fetched document is treated as empty (the written
document's `orders` is the one-element array holding the new order),
and a prior array of length N yields length N+1 with the new order at
index 0 and each prior order shifted by one position. -/
theorem orders_prepend_newest_first (req : ReqModel) (env : EnvModel)
    (remote : RemoteModel) (now : Nat) (o : JsObj) (doc : JsObj) (sha : String)
    (hm : req.method = "POST")
    (ht : truthyEnv env.githubToken = true)
    (how : truthyEnv env.githubOwner = true)
    (hre : truthyEnv env.githubRepo = true)
    (hbody : req.body = BodyVal.objv o)
    (hfield : (truthyField (.obj o) "fullName" || truthyField (.obj o) "phone") = true)
    (hget : remote.getResult = .ok (doc, sha)) :
    ∃ w, (handler req env remote now).writes = [w] ∧
      ((∀ xs, getField doc "orders" ≠ some (JsVal.arr xs)) →
        getField w.doc "orders" = some (.arr [.obj (acceptOrder o now)])) ∧
      (∀ xs, getField doc "orders" = some (JsVal.arr xs) →
        ∃ ys, getField w.doc "orders" = some (JsVal.arr ys) ∧
          ys.length = xs.length + 1 ∧
          ys.get? 0 = some (.obj (acceptOrder o now)) ∧
          ∀ i, i < xs.length → ys.get? (i + 1) = xs.get? i) := by
  have h := handler_accept req env remote now o doc sha hm ht how hre hbody hfield hget
  refine ⟨acceptPutReq env o doc sha now, ?_, ?_, ?_⟩
  · cases hp : remote.putOk <;> rw [hp] at h <;> simp at h <;> rw [h]
  · intro hne
    have hprior : priorOrders doc = [] := by
      unfold priorOrders
      cases hdoc : getField doc "orders" with
      | none => rfl
      | some v =>
        cases v with
        | arr xs => exact absurd hdoc (hne xs)
        | null => rfl
        | bool b => rfl
        | num n => rfl
        | str s => rfl
        | obj f => rfl
    simp [acceptPutReq, hprior, getField_setField_self]
  · intro xs hxs
    have hprior : priorOrders doc = xs := by unfold priorOrders; rw [hxs]
    refine ⟨.obj (acceptOrder o now) :: xs, ?_, by simp, rfl, fun i _ => rfl⟩
    simp [acceptPutReq, hprior, getField_setField_self]

/-- C5 witness: a concrete accepted order against a document with one
prior order; the written `orders` has length 2, the new order first
and the prior order shifted to index 1. -/
theorem orders_prepend_newest_first_witness :
    ∃ w, (handler { method := "POST", body := .objv [("fullName", JsVal.str "A")] }
        { githubToken := some "t", githubOwner := some "o", githubRepo := some "r",
          githubBranch := none }
        { getResult := .ok ([("orders", JsVal.arr [JsVal.str "old"])], "s1"),
          putOk := true } 3).writes = [w] ∧
      ((∀ xs, getField [("orders", JsVal.arr [JsVal.str "old"])] "orders" ≠
          some (JsVal.arr xs)) →
        getField w.doc "orders" =
          some (.arr [.obj (acceptOrder [("fullName", JsVal.str "A")] 3)])) ∧
      (∀ xs, getField [("orders", JsVal.arr [JsVal.str "old"])] "orders" =
          some (JsVal.arr xs) →
        ∃ ys, getField w.doc "orders" = some (JsVal.arr ys) ∧
          ys.length = xs.length + 1 ∧
          ys.get? 0 = some (.obj (acceptOrder [("fullName", JsVal.str "A")] 3)) ∧
          ∀ i, i < xs.length → ys.get? (i + 1) = xs.get? i) :=
  orders_prepend_newest_first
    { method := "POST", body := .objv [("fullName", JsVal.str "A")] }
    { githubToken := some "t", githubOwner := some "o", githubRepo := some "r",
      githubBranch := none }
    { getResult := .ok ([("orders", JsVal.arr [JsVal.str "old"])], "s1"), putOk := true }
    3 [("fullName", JsVal.str "A")] [("orders", JsVal.arr [JsVal.str "old"])] "s1"
    rfl rfl rfl rfl rfl (by decide) rfl

/-- C9: the handler responds 400 to every POST whose parsed body
object has neither a `fullName` nor a `phone` field, and responds 500
whenever a required deployment secret is absent (or empty), even for a
valid body, the configuration check preceding all body handling. -/
theorem handler_400_and_500 (req : ReqModel) (env : EnvModel)
    (remote : RemoteModel) (now : Nat) :
    (∀ o, req.method = "POST" →
      truthyEnv env.githubToken = true →
      truthyEnv env.githubOwner = true →
      truthyEnv env.githubRepo = true →
      req.body = BodyVal.objv o →
      getField o "fullName" = none →
      getField o "phone" = none →
      (handler req env remote now).status = 400) ∧
    (req.method = "POST" →
      (truthyEnv env.githubToken = false ∨ truthyEnv env.githubOwner = false ∨
       truthyEnv env.githubRepo = false) →
      (handler req env remote now).status = 500) := by
  constructor
  · intro o hm ht how hre hbody hfn hph
    simp [handler, hm, ht, how, hre, hbody, parseBody, isNonObjectBody,
      truthyField, truthyO, hfn, hph]
  · intro hm hmiss
    rcases hmiss with h | h | h <;>
      simp [handler, hm, h]

/-- C9 witness: a POST with body `{"city": "C"}` (no fullName, no
phone) answered 400; the same valid-body POST with the token unset
answered 500. -/
theorem handler_400_and_500_witness :
    (handler { method := "POST", body := .objv [("city", JsVal.str "C")] }
      { githubToken := some "t", githubOwner := some "o", githubRepo := some "r",
        githubBranch := none }
      { getResult := .ok ([], "s"), putOk := true } 1).status = 400 ∧
    (handler { method := "POST", body := .objv [("fullName", JsVal.str "A"),
        ("phone", JsVal.str "06")] }
      { githubToken := none, githubOwner := some "o", githubRepo := some "r",
        githubBranch := none }
      { getResult := .ok ([], "s"), putOk := true } 1).status = 500 := by
  constructor
  · exact (handler_400_and_500 { method := "POST", body := .objv [("city", JsVal.str "C")] }
      { githubToken := some "t", githubOwner := some "o", githubRepo := some "r",
        githubBranch := none }
      { getResult := .ok ([], "s"), putOk := true } 1).1
      [("city", JsVal.str "C")] rfl rfl rfl rfl rfl rfl rfl
  · exact (handler_400_and_500 { method := "POST", body := .objv [("fullName", JsVal.str "A"),
        ("phone", JsVal.str "06")] }
      { githubToken := none, githubOwner := some "o", githubRepo := some "r",
        githubBranch := none }
      { getResult := .ok ([], "s"), putOk := true } 1).2 rfl (Or.inl rfl)

/-- C10 counterexample: a client-supplied id is NOT always preserved
verbatim — a client that supplies `id: ""` (the field is present) gets
it overwritten with the time-derived id, because the code tests
truthiness (`order.id || ...`), not field presence.  The stored order
carries `id: "ord-42"` although the request body carried `id: ""`. -/
theorem client_id_overwritten_counterexample :
    (handler
        { method := "POST",
          body := .objv [("fullName", JsVal.str "Amal"), ("id", JsVal.str "")] }
        { githubToken := some "t", githubOwner := some "o", githubRepo := some "r",
          githubBranch := none }
        { getResult := .ok ([], "sha1"), putOk := true } 42).writes =
      [{ doc := [("orders", JsVal.arr [JsVal.obj
             [("fullName", JsVal.str "Amal"), ("id", JsVal.str "ord-42"),
              ("status", JsVal.str "pending")]])],
         sha := some "sha1", branch := "main", message := "Add order ord-42" }] ∧
    getField [("fullName", JsVal.str "Amal"), ("id", JsVal.str "")] "id" =
      some (JsVal.str "") ∧
    ("ord-42" : String) ≠ "" := by
  refine ⟨rfl, rfl, by decide⟩

theorem acceptOrder_spec (o : JsObj) (now : Nat) :
    acceptOrder o now =
      if truthyO (getField o "id") then
        (if truthyO (getField o "status") then o
         else setField o "status" (.str "pending"))
      else
        (if truthyO (getField o "status") then
           setField o "id" (.str ("ord-" ++ toString now))
         else
           setField (setField o "id" (.str ("ord-" ++ toString now)))
             "status" (.str "pending")) := by
  unfold acceptOrder
  cases hid : truthyO (getField o "id") with
  | true => simp [hid]
  | false =>
    have hstat1 : getField (setField o "id" (JsVal.str ("ord-" ++ toString now)))
        "status" = getField o "status" :=
      getField_setField_ne o "id" "status" _ (by decide)
    simp [hid, hstat1]

/-- C10 (amended): for every accepted order the handler stores the
client-supplied object with all fields other than `id` and `status`
unchanged; `id` is set to `'ord-' + Date.now()` exactly when the
client-supplied id is absent or falsy (and likewise `status` defaults
to `'pending'`); a truthy client-supplied id or status is preserved
verbatim, with no uniqueness or format check. -/
theorem stored_order_frame (o : JsObj) (now : Nat) (req : ReqModel)
    (env : EnvModel) (remote : RemoteModel) (doc : JsObj) (sha : String)
    (hm : req.method = "POST")
    (ht : truthyEnv env.githubToken = true)
    (how : truthyEnv env.githubOwner = true)
    (hre : truthyEnv env.githubRepo = true)
    (hbody : req.body = BodyVal.objv o)
    (hfield : (truthyField (.obj o) "fullName" || truthyField (.obj o) "phone") = true)
    (hget : remote.getResult = .ok (doc, sha)) :
    (∀ k, k ≠ "id" → k ≠ "status" →
      getField (acceptOrder o now) k = getField o k) ∧
    (truthyO (getField o "id") = true →
      getField (acceptOrder o now) "id" = getField o "id") ∧
    (truthyO (getField o "id") = false →
      getField (acceptOrder o now) "id" =
        some (JsVal.str ("ord-" ++ toString now))) ∧
    (truthyO (getField o "status") = true →
      getField (acceptOrder o now) "status" = getField o "status") ∧
    (truthyO (getField o "status") = false →
      getField (acceptOrder o now) "status" = some (JsVal.str "pending")) ∧
    (∃ w, (handler req env remote now).writes = [w] ∧
      getField w.doc "orders" =
        some (JsVal.arr (.obj (acceptOrder o now) :: priorOrders doc))) := by
  have hspec := acceptOrder_spec o now
  refine ⟨?_, ?_, ?_, ?_, ?_, ?_⟩
  · intro k hkid hkst
    rw [hspec]
    cases hid : truthyO (getField o "id") <;>
      cases hst : truthyO (getField o "status") <;>
        simp [hid, hst, getField_setField_ne _ _ _ _ hkid,
          getField_setField_ne _ _ _ _ hkst]
  · intro hid
    rw [hspec]
    cases hst : truthyO (getField o "status") <;>
      simp [hid, hst, getField_setField_ne o "status" "id" _ (by decide)]
  · intro hid
    rw [hspec]
    cases hst : truthyO (getField o "status") <;>
      simp [hid, hst, getField_setField_self,
        getField_setField_ne _ "status" "id" _ (by decide)]
  · intro hst
    rw [hspec]
    cases hid : truthyO (getField o "id") <;>
      simp [hid, hst, getField_setField_ne o "id" "status" _ (by decide)]
  · intro hst
    rw [hspec]
    cases hid : truthyO (getField o "id") <;>
      simp [hid, hst, getField_setField_self]
  · have h := handler_accept req env remote now o doc sha hm ht how hre hbody hfield hget
    cases hp : remote.putOk <;> rw [hp] at h <;> simp at h <;>
      exact ⟨acceptPutReq env o doc sha now, by rw [h], by
        simp [acceptPutReq, getField_setField_self]⟩

/-- C10 witness: an order with truthy id `"X9"` and no status: the id
is preserved verbatim, the status defaults to `"pending"`, and the
`fullName` field is unchanged in the stored object. -/
theorem stored_order_frame_witness :
    truthyO (getField [("fullName", JsVal.str "Amal"), ("id", JsVal.str "X9")] "id") = true ∧
    getField (acceptOrder [("fullName", JsVal.str "Amal"), ("id", JsVal.str "X9")] 7) "id" =
      getField [("fullName", JsVal.str "Amal"), ("id", JsVal.str "X9")] "id" ∧
    getField (acceptOrder [("fullName", JsVal.str "Amal"), ("id", JsVal.str "X9")] 7) "status" =
      some (JsVal.str "pending") ∧
    getField (acceptOrder [("fullName", JsVal.str "Amal"), ("id", JsVal.str "X9")] 7) "fullName" =
      getField [("fullName", JsVal.str "Amal"), ("id", JsVal.str "X9")] "fullName" := by
  have h := stored_order_frame [("fullName", JsVal.str "Amal"), ("id", JsVal.str "X9")] 7
    { method := "POST",
      body := .objv [("fullName", JsVal.str "Amal"), ("id", JsVal.str "X9")] }
    { githubToken := some "t", githubOwner := some "o", githubRepo := some "r",
      githubBranch := none }
    { getResult := .ok ([], "s"), putOk := true } [] "s"
    rfl rfl rfl rfl rfl (by decide) rfl
  exact ⟨rfl, h.2.1 rfl, h.2.2.2.2.1 rfl, h.1 "fullName" (by decide) (by decide)⟩

/-- C2: the order submitter resolves (never rejects — it is a total
Boolean-valued function of its inputs) to `true` iff the URL is
present and syntactically HTTP(S), serialization succeeds, and an HTTP
response with status in [200,299] is received; the response body never
alters the result. -/
theorem submitter_status_only (apiUrl : Option String)
    (pageSecure serializeOk : Bool) (fetchResult : Except Unit FetchResponse) :
    ((sendOrderToApi apiUrl pageSecure serializeOk fetchResult).2 = true ↔
      ((stripTrailingSlashes (apiUrl.getD "") ≠ "" ∧
        hasHttpScheme (stripTrailingSlashes (apiUrl.getD "")) = true) ∧
       serializeOk = true ∧
       ∃ r, fetchResult = .ok r ∧ 200 ≤ r.status ∧ r.status ≤ 299)) ∧
    (∀ st b1 b2, sendOrderToApi apiUrl pageSecure serializeOk (.ok ⟨st, b1⟩) =
      sendOrderToApi apiUrl pageSecure serializeOk (.ok ⟨st, b2⟩)) := by
  refine ⟨?_, fun st b1 b2 => rfl⟩
  by_cases hU : stripTrailingSlashes (apiUrl.getD "") = ""
  · simp [sendOrderToApi, hU]
  · by_cases hS : hasHttpScheme (stripTrailingSlashes (apiUrl.getD "")) = true
    · cases serializeOk with
      | false => simp [sendOrderToApi, hU, hS]
      | true =>
        rcases fetchResult with e | r
        · simp [sendOrderToApi, hU, hS]
        · by_cases hst : 200 ≤ r.status ∧ r.status ≤ 299
          · simp [sendOrderToApi, hU, hS, hst]
          · simp [sendOrderToApi, hU, hS, hst]
    · have hS' : hasHttpScheme (stripTrailingSlashes (apiUrl.getD "")) = false :=
        Bool.not_eq_true _ ▸ (by simpa using hS)
      simp [sendOrderToApi, hU, hS']

/-- C2 witness: concrete cases — a 201 response yields `true`, a 500
response yields `false`. -/
theorem submitter_status_only_witness :
    (sendOrderToApi (some "https://api.x/orders") true true
      (.ok { status := 201, body := "{}" })).2 = true ∧
    (sendOrderToApi (some "https://api.x/orders") true true
      (.ok { status := 500, body := "" })).2 ≠ true := by
  constructor
  · exact (submitter_status_only (some "https://api.x/orders") true true
      (.ok { status := 201, body := "{}" })).1.mpr
      ⟨⟨by decide, by decide⟩, rfl,
       ⟨{ status := 201, body := "{}" }, rfl, by decide, by decide⟩⟩
  · intro hc
    have h := (submitter_status_only (some "https://api.x/orders") true true
      (.ok { status := 500, body := "" })).1.mp hc
    rcases h with ⟨_, _, r, hr, h2, h3⟩
    cases hr
    exact absurd h3 (by decide)

theorem validate_false_of_phoneRegex_false (f : FormModel)
    (hreg : phoneRegexOk (fieldValue f.phone) = false) :
    (validateOrderForm f).1 = false := by
  unfold validateOrderForm
  by_cases hp : f.present
  · by_cases h1 : fieldValue f.fullName = ""
    · simp [hp, h1]
    · by_cases h2 : fieldValue f.phone = ""
      · simp [hp, h1, h2]
      · simp [hp, h1, h2, hreg]
  · have : f.present = false := by simpa using hp
    simp [this]

/-- C6: validation checks the fields in the fixed order name → phone →
city → cart and short-circuits on the first failure (at most one
rejection alert, whose reason is the first failing check, independent
of the later fields); in particular, for every phone value containing
a character outside digits, '+', whitespace and '-', validation
rejects, no fetch network call is issued and no order payload is
built. -/
theorem validation_order_and_phone_class (env : ClientEnv) :
    ((validateOrderForm env.form).2.length ≤ 1) ∧
    (env.form.present = true →
      (fieldValue env.form.fullName = "" →
        validateOrderForm env.form = (false, ["Please enter your full name"])) ∧
      (fieldValue env.form.fullName ≠ "" → fieldValue env.form.phone = "" →
        validateOrderForm env.form = (false, ["Please enter your phone number"])) ∧
      (fieldValue env.form.fullName ≠ "" → fieldValue env.form.phone ≠ "" →
        phoneRegexOk (fieldValue env.form.phone) = false →
        validateOrderForm env.form = (false, ["Please enter a valid phone number"])) ∧
      (fieldValue env.form.fullName ≠ "" → fieldValue env.form.phone ≠ "" →
        phoneRegexOk (fieldValue env.form.phone) = true →
        fieldValue env.form.city = "" →
        validateOrderForm env.form = (false, ["Please enter your city"])) ∧
      (fieldValue env.form.fullName ≠ "" → fieldValue env.form.phone ≠ "" →
        phoneRegexOk (fieldValue env.form.phone) = true →
        fieldValue env.form.city ≠ "" →
        (env.form.cart.getD []).isEmpty = true →
        validateOrderForm env.form =
          (false, ["Your cart is empty. Please add products before checkout."]))) ∧
    (∀ s c, env.form.phone = some s → c ∈ s.data → isPhoneChar c = false →
      (validateOrderForm env.form).1 = false ∧
      (handleSubmit false env).fetchCalls = 0 ∧
      (handleSubmit false env).payloadBuilt = false) := by
  refine ⟨?_, fun hp => ⟨?_, ?_, ?_, ?_, ?_⟩, ?_⟩
  · unfold validateOrderForm
    by_cases hpp : env.form.present
    · by_cases h1 : fieldValue env.form.fullName = ""
      · simp [hpp, h1]
      · by_cases h2 : fieldValue env.form.phone = ""
        · simp [hpp, h1, h2]
        · cases hr : phoneRegexOk (fieldValue env.form.phone) with
          | false => simp [hpp, h1, h2, hr]
          | true =>
            by_cases h3 : fieldValue env.form.city = ""
            · simp [hpp, h1, h2, hr, h3]
            · cases hcart : (env.form.cart.getD []).isEmpty <;>
                simp [hpp, h1, h2, hr, h3, hcart]
    · have : env.form.present = false := by simpa using hpp
      simp [this]
  · intro h1
    simp [validateOrderForm, hp, h1]
  · intro h1 h2
    simp [validateOrderForm, hp, h1, h2]
  · intro h1 h2 hr
    simp [validateOrderForm, hp, h1, h2, hr]
  · intro h1 h2 hr h3
    simp [validateOrderForm, hp, h1, h2, hr, h3]
  · intro h1 h2 hr h3 hcart
    simp [validateOrderForm, hp, h1, h2, hr, h3, hcart]
  · intro s c hs hc hbad
    have hsne : s ≠ "" := by
      intro h
      subst h
      cases hc
    have hfv : fieldValue env.form.phone = jsTrim s := by
      rw [hs]
      simp [fieldValue, hsne]
    have hreg : phoneRegexOk (fieldValue env.form.phone) = false := by
      rw [hfv]
      exact phoneRegexOk_jsTrim_false s c hc hbad
    have hval : (validateOrderForm env.form).1 = false :=
      validate_false_of_phoneRegex_false env.form hreg
    have htrace : handleSubmit false env =
        { inProgressAfter := false,
          validationAlerts := (validateOrderForm env.form).2.length,
          successAlerts := 0, failureAlerts := 0, fetchCalls := 0,
          fallbackCalls := 0, payloadBuilt := false } := by
      unfold handleSubmit
      simp [hval]
    exact ⟨hval, by rw [htrace], by rw [htrace]⟩

/-- C6 witness: phone `"06a 12"` contains `'a'`, outside the class:
validation rejects, no fetch happens, no payload is built. -/
theorem validation_order_and_phone_class_witness :
    env6w.form.phone = some "06a 12" ∧ ('a' ∈ ("06a 12" : String).data) ∧
    isPhoneChar 'a' = false ∧
    (validateOrderForm env6w.form).1 = false ∧
    (handleSubmit false env6w).fetchCalls = 0 ∧
    (handleSubmit false env6w).payloadBuilt = false := by
  have h := (validation_order_and_phone_class env6w).2.2 "06a 12" 'a'
    rfl (by decide) (by decide)
  exact ⟨rfl, by decide, by decide, h.1, h.2.1, h.2.2⟩

/-- C7: the endpoint resolver refreshes the configuration source at
most once; when the URL is absent/invalid after the readiness wait and
a refresh operation exists and fulfils, a valid URL read after the
single refresh is returned, and an invalid one falls back to the
page-declared URL (itself only ever a syntactically valid HTTP(S) URL)
or none — with exactly one refresh, never two. -/
theorem resolver_single_refresh (store : Option StoreModel) (page : PageModel) :
    (getOrdersApiUrlWhenReady store page).2 ≤ 1 ∧
    (∀ u, getFallbackOrdersApiUrl page = some u → hasHttpScheme u = true) ∧
    (∀ st, store = some st → st.ready = Except.ok () →
      tryGetUrl st.urlBeforeRefresh = none → st.hasRefresh = true →
      st.refreshResult = Except.ok () →
      (∀ u, tryGetUrl st.urlAfterRefresh = some u →
        getOrdersApiUrlWhenReady store page = (Except.ok (some u), 1)) ∧
      (tryGetUrl st.urlAfterRefresh = none →
        getOrdersApiUrlWhenReady store page =
          (Except.ok (getFallbackOrdersApiUrl page), 1))) := by
  refine ⟨?_, ?_, ?_⟩
  · unfold getOrdersApiUrlWhenReady
    cases store with
    | none => simp
    | some st =>
      rcases hready : st.ready with e | u
      · simp [hready]
      · rcases htry : tryGetUrl st.urlBeforeRefresh with _ | u'
        · cases hhas : st.hasRefresh with
          | false => simp [hready, htry, hhas]
          | true =>
            rcases href : st.refreshResult with e | u''
            · simp [hready, htry, hhas, href]
            · rcases htry2 : tryGetUrl st.urlAfterRefresh with _ | u3 <;>
                simp [hready, htry, hhas, href, htry2]
        · simp [hready, htry]
  · intro u hu
    unfold getFallbackOrdersApiUrl at hu
    rcases hraw : rawFallbackCandidate page with _ | r <;> rw [hraw] at hu
    · simp [acceptHttpCandidate] at hu
    · simp only [acceptHttpCandidate] at hu
      split at hu
      · rename_i hcond
        cases hu
        exact hcond.2
      · cases hu
  · intro st hst hready htry hhas href
    subst hst
    constructor
    · intro u hu
      unfold getOrdersApiUrlWhenReady
      simp [hready, htry, hhas, href, hu]
    · intro hu
      unfold getOrdersApiUrlWhenReady
      simp [hready, htry, hhas, href, hu]

/-- C7 witness: a source that is ready with an empty URL and yields a
valid URL only after refresh — the resolver returns that URL with
exactly one refresh call. -/
theorem resolver_single_refresh_witness :
    tryGetUrl st7.urlBeforeRefresh = none ∧
    (getOrdersApiUrlWhenReady (some st7) demoPage).2 ≤ 1 ∧
    getOrdersApiUrlWhenReady (some st7) demoPage =
      (Except.ok (some "https://api.x/orders"), 1) := by
  have h := resolver_single_refresh (some st7) demoPage
  exact ⟨rfl, h.1, (h.2.2 st7 rfl rfl rfl rfl rfl).1 "https://api.x/orders" rfl⟩

/-- C8 counterexample: with a configuration source that reports
readiness, yields no URL, and whose refresh rejects, the resolver's
promise rejects rather than settling with a URL or none — there is no
catch around `Store.refreshFromRemote().then(...)`. -/
theorem resolver_rejects_counterexample :
    (getOrdersApiUrlWhenReady
        (some { ready := Except.ok (), urlBeforeRefresh := "",
                hasRefresh := true, refreshResult := Except.error (),
                urlAfterRefresh := "" })
        demoPage).1 = Except.error () := rfl

/-- C8 (amended): the resolver's promise settles with a URL or none —
never an error — provided the configuration source's readiness and
refresh promises fulfil; a rejecting refresh (or readiness) promise
propagates as a rejection of the resolver's promise, which only the
coordinator's catch-all absorbs. -/
theorem resolver_no_throw_when_source_fulfils (store : Option StoreModel)
    (page : PageModel)
    (h : ∀ st, store = some st → st.ready = Except.ok () ∧
      (st.hasRefresh = true → st.refreshResult = Except.ok ())) :
    ∃ v, (getOrdersApiUrlWhenReady store page).1 = Except.ok v := by
  cases store with
  | none => exact ⟨getFallbackOrdersApiUrl page, rfl⟩
  | some st =>
    obtain ⟨hready, hrefresh⟩ := h st rfl
    rcases htry : tryGetUrl st.urlBeforeRefresh with _ | u
    · cases hhas : st.hasRefresh with
      | false =>
        exact ⟨getFallbackOrdersApiUrl page, by
          simp [getOrdersApiUrlWhenReady, hready, htry, hhas]⟩
      | true =>
        rcases htry2 : tryGetUrl st.urlAfterRefresh with _ | u2
        · exact ⟨getFallbackOrdersApiUrl page, by
            simp [getOrdersApiUrlWhenReady, hready, htry, hhas, hrefresh hhas, htry2]⟩
        · exact ⟨some u2, by
            simp [getOrdersApiUrlWhenReady, hready, htry, hhas, hrefresh hhas, htry2]⟩
    · exact ⟨some u, by simp [getOrdersApiUrlWhenReady, hready, htry]⟩

/-- C8 amended-claim witness: a fulfilling source (URL present after
refresh) lets the resolver settle successfully. -/
theorem resolver_no_throw_when_source_fulfils_witness :
    ∃ v, (getOrdersApiUrlWhenReady (some st7) demoPage).1 = Except.ok v :=
  resolver_no_throw_when_source_fulfils (some st7) demoPage
    (fun st hst => by
      injection hst with h
      subst h
      exact ⟨rfl, fun _ => rfl⟩)

/-- C1: while an attempt is in flight a submit event is a no-op (the
guard is untouched and no alert, network call, fallback call or
payload build happens); and on every terminal path of an attempt
(validation passed: remote success, fallback success, fallback
failure, or an error caught during resolution or payload build) the
in-flight guard is reset to its initial false and exactly one terminal
notification — success or failure — is surfaced. -/
theorem single_flight_and_one_notification (env : ClientEnv) :
    handleSubmit true env =
      { inProgressAfter := true, validationAlerts := 0, successAlerts := 0,
        failureAlerts := 0, fetchCalls := 0, fallbackCalls := 0,
        payloadBuilt := false } ∧
    ((validateOrderForm env.form).1 = true →
      (handleSubmit false env).inProgressAfter = false ∧
      (handleSubmit false env).successAlerts +
        (handleSubmit false env).failureAlerts = 1) := by
  refine ⟨rfl, fun hv => ?_⟩
  unfold handleSubmit
  cases hb : env.buildOk with
  | false => simp [hv, hb]
  | true =>
    rcases hres : (getOrdersApiUrlWhenReady env.store env.page).1 with e | o
    · cases hfb : env.fallbackOk <;> simp [hv, hb, hres, doneTrace, hfb]
    · rcases o with _ | u
      · cases hfb : env.fallbackOk <;> simp [hv, hb, hres, doneTrace, hfb]
      · cases hs : (sendOrderToApi (some u) env.pageSecure env.serializeOk
            env.fetchResult).2
        · cases hfb : env.fallbackOk <;>
            simp [hv, hb, hres, hs, doneTrace, hfb]
        · simp [hv, hb, hres, hs, doneTrace]

/-- C1 witness: a valid attempt (form valid, build ok, no endpoint,
fallback succeeds) ends with the guard reset and exactly one terminal
notification. -/
theorem single_flight_and_one_notification_witness :
    (validateOrderForm envAttempt.form).1 = true ∧
    (handleSubmit false envAttempt).inProgressAfter = false ∧
    (handleSubmit false envAttempt).successAlerts +
      (handleSubmit false envAttempt).failureAlerts = 1 := by
  have h := (single_flight_and_one_notification envAttempt).2 (by decide)
  exact ⟨by decide, h.1, h.2⟩

/-- C3: when the resolver yields no URL, or yields a URL but the
submitter returns false, the coordinator attempts local fallback
persistence exactly once, and the attempt's outcome is the success
notification iff the fallback returned true and the failure
notification iff it returned false. -/
theorem fallback_once_and_outcome (env : ClientEnv)
    (hv : (validateOrderForm env.form).1 = true)
    (hb : env.buildOk = true) :
    ((getOrdersApiUrlWhenReady env.store env.page).1 = Except.ok none →
      (handleSubmit false env).fallbackCalls = 1 ∧
      ((handleSubmit false env).successAlerts = 1 ↔ env.fallbackOk = true) ∧
      ((handleSubmit false env).failureAlerts = 1 ↔ env.fallbackOk = false)) ∧
    (∀ u, (getOrdersApiUrlWhenReady env.store env.page).1 = Except.ok (some u) →
      (sendOrderToApi (some u) env.pageSecure env.serializeOk
        env.fetchResult).2 = false →
      (handleSubmit false env).fallbackCalls = 1 ∧
      ((handleSubmit false env).successAlerts = 1 ↔ env.fallbackOk = true) ∧
      ((handleSubmit false env).failureAlerts = 1 ↔ env.fallbackOk = false)) := by
  constructor
  · intro hres
    unfold handleSubmit
    cases hfb : env.fallbackOk <;> simp [hv, hb, hres, doneTrace, hfb]
  · intro u hres hs
    unfold handleSubmit
    cases hfb : env.fallbackOk <;> simp [hv, hb, hres, hs, doneTrace, hfb]

/-- C3 witness: no endpoint configured, fallback succeeds — exactly
one fallback call and a success outcome. -/
theorem fallback_once_and_outcome_witness :
    (validateOrderForm envAttempt.form).1 = true ∧
    (getOrdersApiUrlWhenReady envAttempt.store envAttempt.page).1 =
      Except.ok none ∧
    (handleSubmit false envAttempt).fallbackCalls = 1 ∧
    (handleSubmit false envAttempt).successAlerts = 1 := by
  have h := (fallback_once_and_outcome envAttempt (by decide) rfl).1 rfl
  exact ⟨by decide, rfl, h.1, h.2.1.mpr rfl⟩

end Store11
